import Mathlib

/-!
Verification of the pirsch analytics engine (query/aggregation side).

The Go source is shallowly embedded:

* `time.Time` values become `Pirsch.DateTime`, a record of calendar
  components interpreted in UTC.  Every time the analyzer and filter code
  handles is produced by `time.Date(..., time.UTC)` or `Today()`, so the
  component representation is faithful; the instant order of two
  component-valid times is the lexicographic order on the components,
  which is what `DateTime.After` implements (mirroring `time.Time.After`).
* Go `int` counters become `Int` (counts are small; overflow is not
  reachable in any statement proved here).
* Go `float64` arithmetic on relative shares and bounce rates is idealized
  as exact rational arithmetic (`ℚ`).  Division by zero yields `0` in `ℚ`
  where Go would produce `NaN`; every theorem below that touches a
  quotient carries a positivity hypothesis that keeps the two semantics
  in agreement.
* Fallible store calls are values of `Except StoreErr _` (an error is an
  opaque string); Go `nil` pointers become `Option.none`, and a Go panic
  (nil dereference) is modelled by a `none` result of the whole call.
-/

namespace Pirsch

/-- Embedding of Go `time.Time` restricted to UTC: the calendar components
`(year, month, day, hour, minute, second, nsec)`.  The code under
verification only builds times via `time.Date(..., time.UTC)`-style
constructions, so components are the whole state. -/
structure DateTime where
  year : Int
  month : Int
  day : Int
  hour : Int
  minute : Int
  second : Int
  nsec : Int
deriving DecidableEq, Repr

/-- The zero value of Go `time.Time`: January 1, year 1, 00:00:00 UTC. -/
def DateTime.zero : DateTime := ⟨1, 1, 1, 0, 0, 0, 0⟩

/-- Strict instant order on component-valid UTC times: lexicographic on
the components.  `time.Time.Before`/`After` agree with this order for
times built from in-range components in the same location. -/
def DateTime.ltP (t u : DateTime) : Prop :=
  t.year < u.year ∨ (t.year = u.year ∧
    (t.month < u.month ∨ (t.month = u.month ∧
      (t.day < u.day ∨ (t.day = u.day ∧
        (t.hour < u.hour ∨ (t.hour = u.hour ∧
          (t.minute < u.minute ∨ (t.minute = u.minute ∧
            (t.second < u.second ∨ (t.second = u.second ∧
              t.nsec < u.nsec)))))))))))

instance (t u : DateTime) : Decidable (DateTime.ltP t u) := by
  unfold DateTime.ltP; infer_instance

/-- Go `t.After(u)`: `t` is strictly later than `u`. -/
def DateTime.After (t u : DateTime) : Bool := decide (DateTime.ltP u t)

/-- Go `t.Equal(u)` for UTC component times. -/
def DateTime.Equal (t u : DateTime) : Bool := t == u

/-- Go `t.IsZero()`. -/
def DateTime.IsZero (t : DateTime) : Bool := t == DateTime.zero

/-- `Filter.toUTCDate` from the source: `time.Date(date.Year(),
date.Month(), date.Day(), 0, 0, 0, 0, time.UTC)`. -/
def toUTCDate (date : DateTime) : DateTime :=
  ⟨date.year, date.month, date.day, 0, 0, 0, 0⟩

/-- The truncation of `Start` inside `Filter.validate`: `time.Date(Y, M,
D, h, m, s, 0, time.UTC)`. -/
def truncSecondUTC (date : DateTime) : DateTime :=
  ⟨date.year, date.month, date.day, date.hour, date.minute, date.second, 0⟩

/-- The query filter (`Filter` in the source), with the fields
`validate()` reads or writes plus the dimension predicates. -/
structure Filter where
  ClientID : Int := 0
  From : DateTime := DateTime.zero
  To : DateTime := DateTime.zero
  Day : DateTime := DateTime.zero
  Start : DateTime := DateTime.zero
  Path : String := ""
  Language : String := ""
  Country : String := ""
  Referrer : String := ""
  OS : String := ""
  OSVersion : String := ""
  Browser : String := ""
  BrowserVersion : String := ""
  Platform : String := ""
  ScreenClass : String := ""
  UTMSource : String := ""
  UTMMedium : String := ""
  UTMCampaign : String := ""
  UTMContent : String := ""
  UTMTerm : String := ""
  Limit : Int := 0
deriving DecidableEq, Repr

/-- Statement 1 of `Filter.validate()`: truncate a non-zero `From` to its
UTC day boundary. -/
def truncFromStep (filter : Filter) : Filter :=
  if filter.From.IsZero then filter else
    { filter with From := toUTCDate filter.From }

/-- Statement 2 of `Filter.validate()`: truncate a non-zero `To`. -/
def truncToStep (filter : Filter) : Filter :=
  if filter.To.IsZero then filter else
    { filter with To := toUTCDate filter.To }

/-- Statement 3 of `Filter.validate()`: truncate a non-zero `Day`. -/
def truncDayStep (filter : Filter) : Filter :=
  if filter.Day.IsZero then filter else
    { filter with Day := toUTCDate filter.Day }

/-- Statement 4 of `Filter.validate()`: truncate a non-zero `Start` to
second precision. -/
def truncStartStep (filter : Filter) : Filter :=
  if filter.Start.IsZero then filter else
    { filter with Start := truncSecondUTC filter.Start }

/-- Statement 5 of `Filter.validate()`: swap `From` and `To` when `To` is
non-zero and `From` lies after `To`. -/
def swapStep (filter : Filter) : Filter :=
  if !filter.To.IsZero && filter.From.After filter.To then
    { filter with From := filter.To, To := filter.From } else filter

/-- Statement 6 of `Filter.validate()`: clamp a non-zero `To` that lies
after `today` down to `today`. -/
def clampToStep (today : DateTime) (filter : Filter) : Filter :=
  if !filter.To.IsZero && filter.To.After today then
    { filter with To := today } else filter

/-- Statement 7 of `Filter.validate()`: coerce a negative `Limit` to 0. -/
def limitStep (filter : Filter) : Filter :=
  if filter.Limit < 0 then { filter with Limit := 0 } else filter

/-- `Filter.validate()` from the source, with `Today()` passed in as the
parameter `today` (in Go it is read from the clock inside the call).  The
seven statements of the body run in exactly the source order; note that
the `From`/`To` swap happens before `To` is clamped to `today`. -/
def Filter.validate (today : DateTime) (filter : Filter) : Filter :=
  limitStep (clampToStep today (swapStep
    (truncStartStep (truncDayStep (truncToStep (truncFromStep filter))))))

theorem DateTime.after_irrefl (t : DateTime) : t.After t = false := by
  simp only [DateTime.After, decide_eq_false_iff_not, DateTime.ltP]
  omega

theorem DateTime.not_after_trans {a b c : DateTime} (h1 : a.After b = false)
    (h2 : b.After c = false) : a.After c = false := by
  simp only [DateTime.After, decide_eq_false_iff_not, DateTime.ltP] at *
  omega

theorem DateTime.after_total (a b : DateTime) :
    a.After b = false ∨ b.After a = false := by
  simp only [DateTime.After, decide_eq_false_iff_not, DateTime.ltP]
  omega

theorem DateTime.isZero_iff {t : DateTime} : t.IsZero = true ↔ t = DateTime.zero := by
  simp [DateTime.IsZero]

theorem toUTCDate_idem (d : DateTime) : toUTCDate (toUTCDate d) = toUTCDate d := rfl

theorem truncSecondUTC_idem (d : DateTime) :
    truncSecondUTC (truncSecondUTC d) = truncSecondUTC d := rfl

theorem toUTCDate_zero : toUTCDate DateTime.zero = DateTime.zero := rfl

/-- The value `From` holds right after the truncation pass of
`validate()`, before the swap. -/
def effFrom (f : Filter) : DateTime :=
  if f.From.IsZero then f.From else toUTCDate f.From

/-- The value `To` holds right after the truncation pass of `validate()`,
before the swap and the clamp. -/
def effTo (f : Filter) : DateTime :=
  if f.To.IsZero then f.To else toUTCDate f.To

/-- The value `Day` holds after the truncation pass of `validate()`. -/
def effDay (f : Filter) : DateTime :=
  if f.Day.IsZero then f.Day else toUTCDate f.Day

/-- The value `Start` holds after the truncation pass of `validate()`. -/
def effStart (f : Filter) : DateTime :=
  if f.Start.IsZero then f.Start else truncSecondUTC f.Start

@[simp] theorem truncFromStep_From (f : Filter) : (truncFromStep f).From = effFrom f := by
  unfold truncFromStep effFrom; split <;> rfl

@[simp] theorem truncFromStep_To (f : Filter) : (truncFromStep f).To = f.To := by
  unfold truncFromStep; split <;> rfl

@[simp] theorem truncFromStep_Day (f : Filter) : (truncFromStep f).Day = f.Day := by
  unfold truncFromStep; split <;> rfl

@[simp] theorem truncFromStep_Start (f : Filter) : (truncFromStep f).Start = f.Start := by
  unfold truncFromStep; split <;> rfl

@[simp] theorem truncFromStep_Limit (f : Filter) : (truncFromStep f).Limit = f.Limit := by
  unfold truncFromStep; split <;> rfl

@[simp] theorem truncToStep_From (f : Filter) : (truncToStep f).From = f.From := by
  unfold truncToStep; split <;> rfl

@[simp] theorem truncToStep_To (f : Filter) : (truncToStep f).To = effTo f := by
  unfold truncToStep effTo; split <;> rfl

@[simp] theorem truncToStep_Day (f : Filter) : (truncToStep f).Day = f.Day := by
  unfold truncToStep; split <;> rfl

@[simp] theorem truncToStep_Start (f : Filter) : (truncToStep f).Start = f.Start := by
  unfold truncToStep; split <;> rfl

@[simp] theorem truncToStep_Limit (f : Filter) : (truncToStep f).Limit = f.Limit := by
  unfold truncToStep; split <;> rfl

@[simp] theorem truncDayStep_From (f : Filter) : (truncDayStep f).From = f.From := by
  unfold truncDayStep; split <;> rfl

@[simp] theorem truncDayStep_To (f : Filter) : (truncDayStep f).To = f.To := by
  unfold truncDayStep; split <;> rfl

@[simp] theorem truncDayStep_Day (f : Filter) : (truncDayStep f).Day = effDay f := by
  unfold truncDayStep effDay; split <;> rfl

@[simp] theorem truncDayStep_Start (f : Filter) : (truncDayStep f).Start = f.Start := by
  unfold truncDayStep; split <;> rfl

@[simp] theorem truncDayStep_Limit (f : Filter) : (truncDayStep f).Limit = f.Limit := by
  unfold truncDayStep; split <;> rfl

@[simp] theorem truncStartStep_From (f : Filter) : (truncStartStep f).From = f.From := by
  unfold truncStartStep; split <;> rfl

@[simp] theorem truncStartStep_To (f : Filter) : (truncStartStep f).To = f.To := by
  unfold truncStartStep; split <;> rfl

@[simp] theorem truncStartStep_Day (f : Filter) : (truncStartStep f).Day = f.Day := by
  unfold truncStartStep; split <;> rfl

@[simp] theorem truncStartStep_Start (f : Filter) : (truncStartStep f).Start = effStart f := by
  unfold truncStartStep effStart; split <;> rfl

@[simp] theorem truncStartStep_Limit (f : Filter) : (truncStartStep f).Limit = f.Limit := by
  unfold truncStartStep; split <;> rfl

@[simp] theorem swapStep_From (f : Filter) :
    (swapStep f).From = if !f.To.IsZero && f.From.After f.To then f.To else f.From := by
  unfold swapStep; split <;> rfl

@[simp] theorem swapStep_To (f : Filter) :
    (swapStep f).To = if !f.To.IsZero && f.From.After f.To then f.From else f.To := by
  unfold swapStep; split <;> rfl

@[simp] theorem swapStep_Day (f : Filter) : (swapStep f).Day = f.Day := by
  unfold swapStep; split <;> rfl

@[simp] theorem swapStep_Start (f : Filter) : (swapStep f).Start = f.Start := by
  unfold swapStep; split <;> rfl

@[simp] theorem swapStep_Limit (f : Filter) : (swapStep f).Limit = f.Limit := by
  unfold swapStep; split <;> rfl

@[simp] theorem clampToStep_From (t : DateTime) (f : Filter) :
    (clampToStep t f).From = f.From := by
  unfold clampToStep; split <;> rfl

@[simp] theorem clampToStep_To (t : DateTime) (f : Filter) :
    (clampToStep t f).To = if !f.To.IsZero && f.To.After t then t else f.To := by
  unfold clampToStep; split <;> rfl

@[simp] theorem clampToStep_Day (t : DateTime) (f : Filter) :
    (clampToStep t f).Day = f.Day := by
  unfold clampToStep; split <;> rfl

@[simp] theorem clampToStep_Start (t : DateTime) (f : Filter) :
    (clampToStep t f).Start = f.Start := by
  unfold clampToStep; split <;> rfl

@[simp] theorem clampToStep_Limit (t : DateTime) (f : Filter) :
    (clampToStep t f).Limit = f.Limit := by
  unfold clampToStep; split <;> rfl

@[simp] theorem limitStep_From (f : Filter) : (limitStep f).From = f.From := by
  unfold limitStep; split <;> rfl

@[simp] theorem limitStep_To (f : Filter) : (limitStep f).To = f.To := by
  unfold limitStep; split <;> rfl

@[simp] theorem limitStep_Day (f : Filter) : (limitStep f).Day = f.Day := by
  unfold limitStep; split <;> rfl

@[simp] theorem limitStep_Start (f : Filter) : (limitStep f).Start = f.Start := by
  unfold limitStep; split <;> rfl

@[simp] theorem limitStep_Limit (f : Filter) :
    (limitStep f).Limit = if f.Limit < 0 then 0 else f.Limit := by
  unfold limitStep; split <;> rfl

@[simp] theorem effTo_truncFromStep (f : Filter) :
    effTo (truncFromStep f) = effTo f := by
  simp [effTo]

@[simp] theorem effDay_truncFromStep (f : Filter) :
    effDay (truncFromStep f) = effDay f := by
  simp [effDay]

@[simp] theorem effDay_truncToStep (f : Filter) :
    effDay (truncToStep f) = effDay f := by
  simp [effDay]

@[simp] theorem effStart_truncFromStep (f : Filter) :
    effStart (truncFromStep f) = effStart f := by
  simp [effStart]

@[simp] theorem effStart_truncToStep (f : Filter) :
    effStart (truncToStep f) = effStart f := by
  simp [effStart]

@[simp] theorem effStart_truncDayStep (f : Filter) :
    effStart (truncDayStep f) = effStart f := by
  simp [effStart]

theorem toUTCDate_effFrom (f : Filter) : toUTCDate (effFrom f) = effFrom f := by
  unfold effFrom; split
  next h => rw [DateTime.isZero_iff.mp h]; rfl
  next => rfl

theorem toUTCDate_effTo (f : Filter) : toUTCDate (effTo f) = effTo f := by
  unfold effTo; split
  next h => rw [DateTime.isZero_iff.mp h]; rfl
  next => rfl

theorem toUTCDate_effDay (f : Filter) : toUTCDate (effDay f) = effDay f := by
  unfold effDay; split
  next h => rw [DateTime.isZero_iff.mp h]; rfl
  next => rfl

theorem truncSecondUTC_effStart (f : Filter) :
    truncSecondUTC (effStart f) = effStart f := by
  unfold effStart; split
  next h => rw [DateTime.isZero_iff.mp h]; rfl
  next => rfl

/-- A list of every step-field simp lemma, for rewriting `validate`. -/
theorem validate_From (today : DateTime) (f : Filter) :
    (f.validate today).From =
      if !(effTo f).IsZero && (effFrom f).After (effTo f) then effTo f
      else effFrom f := by
  simp [Filter.validate]

theorem validate_To (today : DateTime) (f : Filter) :
    (f.validate today).To =
      (let to2 := if !(effTo f).IsZero && (effFrom f).After (effTo f)
          then effFrom f else effTo f;
        if !to2.IsZero && to2.After today then today else to2) := by
  simp [Filter.validate]

theorem validate_Day (today : DateTime) (f : Filter) :
    (f.validate today).Day = effDay f := by
  simp [Filter.validate]

theorem validate_Start (today : DateTime) (f : Filter) :
    (f.validate today).Start = effStart f := by
  simp [Filter.validate]

theorem validate_Limit (today : DateTime) (f : Filter) :
    (f.validate today).Limit = max f.Limit 0 := by
  simp only [Filter.validate, limitStep_Limit, clampToStep_Limit, swapStep_Limit,
    truncStartStep_Limit, truncDayStep_Limit, truncToStep_Limit, truncFromStep_Limit]
  omega

theorem DateTime.after_asymm {a b : DateTime} (h : a.After b = true) :
    b.After a = false := by
  simp only [DateTime.After, decide_eq_true_eq, decide_eq_false_iff_not,
    DateTime.ltP] at *
  omega

theorem validate_From_trunc (today : DateTime) (f : Filter) :
    toUTCDate (f.validate today).From = (f.validate today).From := by
  rw [validate_From]; split
  · exact toUTCDate_effTo f
  · exact toUTCDate_effFrom f

theorem clamp_cond_after {x today : DateTime}
    (h0 : DateTime.zero.After today = false)
    (h : ¬(!x.IsZero && x.After today) = true) : x.After today = false := by
  rw [Bool.not_eq_true, Bool.and_eq_false_iff] at h
  rcases h with h | h
  · rw [Bool.not_eq_false'] at h
    rw [DateTime.isZero_iff.mp h]
    exact h0
  · exact h

theorem validate_To_trunc (today : DateTime) (f : Filter)
    (ht : toUTCDate today = today) :
    toUTCDate (f.validate today).To = (f.validate today).To := by
  rw [validate_To]; dsimp only
  split <;> split <;>
    first
      | exact ht
      | exact toUTCDate_effFrom f
      | exact toUTCDate_effTo f

theorem validate_To_le_today (today : DateTime) (f : Filter)
    (h0 : DateTime.zero.After today = false) :
    (f.validate today).To.After today = false := by
  rw [validate_To]; dsimp only
  split <;> split <;> try exact DateTime.after_irrefl today
  all_goals (rename_i h; exact clamp_cond_after h0 h)

theorem validate_From_le_To (today : DateTime) (f : Filter)
    (hTo : (effTo f).IsZero = false)
    (hmin : (effFrom f).After today = false ∨ (effTo f).After today = false) :
    (f.validate today).From.After (f.validate today).To = false := by
  rw [validate_From, validate_To]; dsimp only
  by_cases hs : (!(effTo f).IsZero && (effFrom f).After (effTo f)) = true
  · rw [if_pos hs, if_pos hs]
    have hs2 : (effFrom f).After (effTo f) = true := (Bool.and_eq_true _ _ |>.mp hs).2
    split
    next hc =>
      have hc2 : (effFrom f).After today = true := (Bool.and_eq_true _ _ |>.mp hc).2
      rcases hmin with h | h
      · rw [hc2] at h; exact absurd h (by simp)
      · exact h
    · exact DateTime.after_asymm hs2
  · rw [if_neg hs, if_neg hs]
    have hs2 : (effFrom f).After (effTo f) = false := by
      rcases Bool.and_eq_false_iff.mp (Bool.not_eq_true _ |>.mp hs) with h | h
      · rw [Bool.not_eq_false'] at h; rw [h] at hTo; exact absurd hTo (by simp)
      · exact h
    split
    next hc =>
      have hc2 : (effTo f).After today = true := (Bool.and_eq_true _ _ |>.mp hc).2
      rcases hmin with h | h
      · exact h
      · rw [hc2] at h; exact absurd h (by simp)
    · exact hs2

theorem truncFromStep_eq_self {f : Filter} (h : toUTCDate f.From = f.From) :
    truncFromStep f = f := by
  unfold truncFromStep; split
  · rfl
  · rw [h]

theorem truncToStep_eq_self {f : Filter} (h : toUTCDate f.To = f.To) :
    truncToStep f = f := by
  unfold truncToStep; split
  · rfl
  · rw [h]

theorem truncDayStep_eq_self {f : Filter} (h : toUTCDate f.Day = f.Day) :
    truncDayStep f = f := by
  unfold truncDayStep; split
  · rfl
  · rw [h]

theorem truncStartStep_eq_self {f : Filter} (h : truncSecondUTC f.Start = f.Start) :
    truncStartStep f = f := by
  unfold truncStartStep; split
  · rfl
  · rw [h]

theorem swapStep_eq_self {f : Filter}
    (h : (!f.To.IsZero && f.From.After f.To) = false) : swapStep f = f := by
  unfold swapStep; rw [h]; rfl

theorem clampToStep_eq_self {today : DateTime} {f : Filter}
    (h : (!f.To.IsZero && f.To.After today) = false) : clampToStep today f = f := by
  unfold clampToStep; rw [h]; rfl

theorem limitStep_eq_self {f : Filter} (h : ¬f.Limit < 0) : limitStep f = f := by
  unfold limitStep; rw [if_neg h]

theorem validate_Day_trunc (today : DateTime) (f : Filter) :
    toUTCDate (f.validate today).Day = (f.validate today).Day := by
  rw [validate_Day]; exact toUTCDate_effDay f

theorem validate_Start_trunc (today : DateTime) (f : Filter) :
    truncSecondUTC (f.validate today).Start = (f.validate today).Start := by
  rw [validate_Start]; exact truncSecondUTC_effStart f

theorem validate_To_of_isZero (today : DateTime) (f : Filter)
    (hz : (effTo f).IsZero = true) : (f.validate today).To = effTo f := by
  rw [validate_To]; dsimp only; simp [hz]

theorem validate_idem (today : DateTime) (f : Filter)
    (ht : toUTCDate today = today) (h0 : DateTime.zero.After today = false)
    (hc : (effTo f).IsZero = true ∨ (effFrom f).After today = false ∨
      (effTo f).After today = false) :
    Filter.validate today (Filter.validate today f) = Filter.validate today f := by
  have h1 : truncFromStep (Filter.validate today f) = Filter.validate today f :=
    truncFromStep_eq_self (validate_From_trunc today f)
  have h2 : truncToStep (Filter.validate today f) = Filter.validate today f :=
    truncToStep_eq_self (validate_To_trunc today f ht)
  have h3 : truncDayStep (Filter.validate today f) = Filter.validate today f :=
    truncDayStep_eq_self (validate_Day_trunc today f)
  have h4 : truncStartStep (Filter.validate today f) = Filter.validate today f :=
    truncStartStep_eq_self (validate_Start_trunc today f)
  have h5 : swapStep (Filter.validate today f) = Filter.validate today f := by
    apply swapStep_eq_self
    by_cases hz : (effTo f).IsZero = true
    · rw [Bool.and_eq_false_iff]; left
      rw [Bool.not_eq_false']
      rw [validate_To_of_isZero today f hz]
      exact hz
    · rw [Bool.not_eq_true] at hz
      have hmin : (effFrom f).After today = false ∨ (effTo f).After today = false := by
        rcases hc with h | h | h
        · rw [h] at hz; exact Bool.noConfusion hz
        · exact Or.inl h
        · exact Or.inr h
      rw [Bool.and_eq_false_iff]; right
      exact validate_From_le_To today f hz hmin
  have h6 : clampToStep today (Filter.validate today f) = Filter.validate today f := by
    apply clampToStep_eq_self
    rw [Bool.and_eq_false_iff]; right
    exact validate_To_le_today today f h0
  have h7 : limitStep (Filter.validate today f) = Filter.validate today f := by
    apply limitStep_eq_self
    rw [validate_Limit]
    omega
  conv_lhs => rw [Filter.validate, h1, h2, h3, h4, h5, h6, h7]

/-- A fixed "today" for concrete evaluations: 2021-06-01 UTC. -/
def cexToday : DateTime := ⟨2021, 6, 1, 0, 0, 0, 0⟩

/-- A filter whose `From` and `To` both lie strictly after `cexToday`. -/
def cexFutureFilter : Filter :=
  { From := ⟨2021, 6, 2, 0, 0, 0, 0⟩, To := ⟨2021, 6, 3, 0, 0, 0, 0⟩ }

/-- A generic well-behaved filter for witness instantiations. -/
def witFilter : Filter :=
  { From := ⟨2021, 5, 3, 10, 30, 0, 7⟩, To := ⟨2021, 5, 1, 2, 0, 0, 0⟩,
    Day := ⟨2021, 5, 2, 1, 2, 3, 4⟩, Start := ⟨2021, 5, 1, 1, 2, 3, 4⟩,
    Limit := -7 }

/-- C2: after `Filter.validate`, `From`, `To` and `Day` are truncated to
UTC day boundaries, `Start` is truncated to second precision, `To` never
lies after today, and a negative `Limit` has been coerced to zero
(`Limit = max Limit 0`).  The remaining part of the claim — `From ≤ To`
after validation — is amended: it holds whenever the truncated `To` is
non-zero and at least one of the truncated `From`/`To` does not lie
strictly after today; when both lie strictly after today, clamping `To`
to today after the swap leaves `From` after `To`
(see `C2_from_after_to_cex`). -/
theorem C2_validate_normalizes (today : DateTime) (f : Filter)
    (ht : toUTCDate today = today) (h0 : DateTime.zero.After today = false) :
    toUTCDate (f.validate today).From = (f.validate today).From ∧
    toUTCDate (f.validate today).To = (f.validate today).To ∧
    toUTCDate (f.validate today).Day = (f.validate today).Day ∧
    truncSecondUTC (f.validate today).Start = (f.validate today).Start ∧
    (f.validate today).To.After today = false ∧
    (f.validate today).Limit = max f.Limit 0 ∧
    ((effTo f).IsZero = false →
      ((effFrom f).After today = false ∨ (effTo f).After today = false) →
      (f.validate today).From.After (f.validate today).To = false) :=
  ⟨validate_From_trunc today f, validate_To_trunc today f ht,
    validate_Day_trunc today f, validate_Start_trunc today f,
    validate_To_le_today today f h0, validate_Limit today f,
    fun hTo hmin => validate_From_le_To today f hTo hmin⟩

/-- C2 counterexample: with today = 2021-06-01 and a filter ranging over
2021-06-02..2021-06-03 (both after today), the validated filter has
`From` strictly after `To`, refuting the claim that `From ≤ To` always
holds after validation. -/
theorem C2_from_after_to_cex :
    (cexFutureFilter.validate cexToday).From.After
      ((cexFutureFilter.validate cexToday).To) = true := by decide

/-- C2 witness: the amended normalization facts instantiated at a
concrete filter and day. -/
theorem C2_witness :
    toUTCDate (witFilter.validate cexToday).From = (witFilter.validate cexToday).From ∧
    toUTCDate (witFilter.validate cexToday).To = (witFilter.validate cexToday).To ∧
    toUTCDate (witFilter.validate cexToday).Day = (witFilter.validate cexToday).Day ∧
    truncSecondUTC (witFilter.validate cexToday).Start =
      (witFilter.validate cexToday).Start ∧
    (witFilter.validate cexToday).To.After cexToday = false ∧
    (witFilter.validate cexToday).Limit = max witFilter.Limit 0 ∧
    ((effTo witFilter).IsZero = false →
      ((effFrom witFilter).After cexToday = false ∨
        (effTo witFilter).After cexToday = false) →
      (witFilter.validate cexToday).From.After
        ((witFilter.validate cexToday).To) = false) :=
  C2_validate_normalizes cexToday witFilter (by decide) (by decide)

/-- C3 (amended): `validate` is idempotent — with "today" held fixed —
for every filter in which the truncated `To` is zero or at least one of
the truncated `From`/`To` does not lie strictly after today.  When both
lie strictly after today a second `validate` swaps the (now inverted)
`From`/`To` produced by the clamp, so the composite is not idempotent
there (see `C3_idem_cex`). -/
theorem C3_validate_idem (today : DateTime) (f : Filter)
    (ht : toUTCDate today = today) (h0 : DateTime.zero.After today = false)
    (hc : (effTo f).IsZero = true ∨ (effFrom f).After today = false ∨
      (effTo f).After today = false) :
    Filter.validate today (Filter.validate today f) = Filter.validate today f :=
  validate_idem today f ht h0 hc

/-- C3 counterexample: with today = 2021-06-01 and a filter ranging over
2021-06-02..2021-06-03, a second `validate` changes the filter again, so
`validate` is not idempotent as claimed. -/
theorem C3_idem_cex :
    Filter.validate cexToday (Filter.validate cexToday cexFutureFilter) ≠
      Filter.validate cexToday cexFutureFilter := by decide

/-- C3 witness: idempotence instantiated at a concrete filter and day. -/
theorem C3_witness :
    Filter.validate cexToday (Filter.validate cexToday witFilter) =
      Filter.validate cexToday witFilter :=
  C3_validate_idem cexToday witFilter (by decide) (by decide) (by decide)

/-! ### Statistics row types

The `*Stats` structures live in `stats.go`-style files that are not part
of the provided sources; only their field uses inside `analyzer.go` and
the SQL column lists in `postgres.go` are visible.  They are therefore
modelled from the spec (rollup rows keyed by a dimension value, holding a
visitor count plus a derived relative share). -/

/-- Go `sql.NullString`. -/
structure NullString where
  string : String := ""
  valid : Bool := false
deriving DecidableEq, Repr

/-- Modelled from the spec: `LanguageStats`, a language rollup row — the
dimension value, its visitor count, and the derived relative share
(`analyzer.go` reads `Language.String`, `Visitors`, `RelativeVisitors`). -/
structure LanguageStats where
  Language : NullString := {}
  Visitors : Int := 0
  RelativeVisitors : ℚ := 0
deriving DecidableEq, Repr

/-- Modelled from the spec: `ReferrerStats`, a referrer rollup row. -/
structure ReferrerStats where
  Referrer : NullString := {}
  Visitors : Int := 0
  RelativeVisitors : ℚ := 0
deriving DecidableEq, Repr

/-- Modelled from the spec: `OSStats`, an operating-system rollup row. -/
structure OSStats where
  OS : NullString := {}
  Visitors : Int := 0
  RelativeVisitors : ℚ := 0
deriving DecidableEq, Repr

/-- Modelled from the spec: `BrowserStats`, a browser rollup row. -/
structure BrowserStats where
  Browser : NullString := {}
  Visitors : Int := 0
  RelativeVisitors : ℚ := 0
deriving DecidableEq, Repr

/-- Modelled from the spec: `ScreenStats`, a screen-size rollup row. -/
structure ScreenStats where
  Width : Int := 0
  Height : Int := 0
  Visitors : Int := 0
  RelativeVisitors : ℚ := 0
deriving DecidableEq, Repr

/-- Modelled from the spec: `CountryStats`, a country rollup row. -/
structure CountryStats where
  CountryCode : NullString := {}
  Visitors : Int := 0
  RelativeVisitors : ℚ := 0
deriving DecidableEq, Repr

/-- Modelled from the spec: `Stats`, a per-day row with visitor, session
and bounce counts plus the derived bounce rate (`analyzer.go` reads
`Visitors`, `Sessions`, `Bounces`, `BounceRate`, the store scans `day`,
`visitors`, `sessions`, `bounces`). -/
structure Stats where
  Day : DateTime := DateTime.zero
  Path : String := ""
  Visitors : Int := 0
  Sessions : Int := 0
  Bounces : Int := 0
  BounceRate : ℚ := 0
deriving DecidableEq, Repr

/-- Modelled from the spec: `VisitorStats`, the whole-period/platform
aggregate row with the three platform counters and their relative
shares. -/
structure VisitorStats where
  Visitors : Int := 0
  Sessions : Int := 0
  Bounces : Int := 0
  PlatformDesktop : Int := 0
  PlatformMobile : Int := 0
  PlatformUnknown : Int := 0
  RelativePlatformDesktop : ℚ := 0
  RelativePlatformMobile : ℚ := 0
  RelativePlatformUnknown : ℚ := 0
deriving DecidableEq, Repr

/-! ### The merge step of the dimension queries -/

/-- One iteration of the merge loop in `Analyzer.Languages`
(analyzer.go:113-127): scan the historical rows for the first one whose
`Language.String` equals the live row key; if found add the live visitor
count into it, otherwise append the live row unchanged. -/
def mergeLanguageRow : List LanguageStats → LanguageStats → List LanguageStats
  | [], v => [v]
  | s :: rest, v =>
    if s.Language.string == v.Language.string then
      { s with Visitors := s.Visitors + v.Visitors } :: rest
    else
      s :: mergeLanguageRow rest v

/-- The whole merge loop of `Analyzer.Languages`: fold every live row
into the historical rows. -/
def mergeLanguagesToday (stats visitorsToday : List LanguageStats) :
    List LanguageStats :=
  visitorsToday.foldl mergeLanguageRow stats

/-- Total visitor count carried by rows with language key `k`. -/
def langSum (k : String) (l : List LanguageStats) : Int :=
  ((l.filter (fun s => s.Language.string == k)).map (fun s => s.Visitors)).sum

/-- Number of rows with language key `k`. -/
def langCount (k : String) (l : List LanguageStats) : Nat :=
  (l.filter (fun s => s.Language.string == k)).length

theorem langSum_nil (k : String) : langSum k [] = 0 := rfl

theorem langSum_cons (k : String) (v : LanguageStats) (l : List LanguageStats) :
    langSum k (v :: l) =
      (if v.Language.string == k then v.Visitors else 0) + langSum k l := by
  by_cases h : v.Language.string == k <;>
    simp [langSum, List.filter_cons, h]

theorem langCount_cons (k : String) (v : LanguageStats) (l : List LanguageStats) :
    langCount k (v :: l) =
      (if v.Language.string == k then 1 else 0) + langCount k l := by
  by_cases h : v.Language.string == k <;>
    simp [langCount, List.filter_cons, h] <;> omega

theorem langSum_mergeLanguageRow (stats : List LanguageStats) (v : LanguageStats)
    (k : String) :
    langSum k (mergeLanguageRow stats v) =
      langSum k stats + (if v.Language.string == k then v.Visitors else 0) := by
  induction stats with
  | nil =>
    by_cases hc : v.Language.string == k <;>
      simp [mergeLanguageRow, langSum_cons, langSum_nil, hc]
  | cons s rest ih =>
    by_cases h : s.Language.string == v.Language.string
    · have hk : s.Language.string = v.Language.string := by simpa using h
      by_cases h2 : v.Language.string == k <;>
        simp [mergeLanguageRow, langSum_cons, h, hk, h2] <;> omega
    · by_cases h2 : s.Language.string == k <;>
      by_cases h3 : v.Language.string == k <;>
        simp [mergeLanguageRow, langSum_cons, h, h2, h3, ih] <;> omega

theorem langCount_mergeLanguageRow (stats : List LanguageStats)
    (v : LanguageStats) (k : String) :
    langCount k (mergeLanguageRow stats v) =
      if v.Language.string == k ∧ langCount k stats = 0 then 1
      else langCount k stats := by
  induction stats with
  | nil =>
    by_cases hc : v.Language.string == k <;>
      simp [mergeLanguageRow, langCount_cons, langCount, hc]
  | cons s rest ih =>
    by_cases h : s.Language.string == v.Language.string
    · have hk : s.Language.string = v.Language.string := by simpa using h
      by_cases h2 : v.Language.string == k <;>
        simp [mergeLanguageRow, langCount_cons, h, hk, h2] <;> omega
    · by_cases h2 : s.Language.string == k
      · have h3 : ¬(v.Language.string == k) = true := by
          intro hv
          exact h (by simp_all)
        by_cases h4 : langCount k rest = 0 <;>
          simp [mergeLanguageRow, langCount_cons, h, h2, h3, h4, ih] <;> omega
      · by_cases h3 : v.Language.string == k <;>
        by_cases h4 : langCount k rest = 0 <;>
          simp [mergeLanguageRow, langCount_cons, h, h2, h3, h4, ih] <;> omega

theorem langSum_mergeLanguagesToday (live : List LanguageStats) (stats : List LanguageStats)
    (k : String) :
    langSum k (mergeLanguagesToday stats live) = langSum k stats + langSum k live := by
  induction live generalizing stats with
  | nil => simp [mergeLanguagesToday, langSum_nil]
  | cons v rest ih =>
    simp only [mergeLanguagesToday, List.foldl_cons] at ih ⊢
    rw [ih (mergeLanguageRow stats v), langSum_mergeLanguageRow, langSum_cons]
    by_cases hc : v.Language.string == k <;> simp [hc] <;> omega

theorem langCount_mergeLanguagesToday (live : List LanguageStats)
    (stats : List LanguageStats) (k : String)
    (hl : ∀ k2, langCount k2 live ≤ 1) :
    langCount k (mergeLanguagesToday stats live) =
      max (langCount k stats) (langCount k live) := by
  induction live generalizing stats with
  | nil => simp [mergeLanguagesToday, langCount]
  | cons v rest ih =>
    have hrest : ∀ k2, langCount k2 rest ≤ 1 := by
      intro k2
      have h2 := hl k2
      rw [langCount_cons] at h2
      split at h2 <;> omega
    have hlk := hl k
    rw [langCount_cons] at hlk
    simp only [mergeLanguagesToday, List.foldl_cons] at ih ⊢
    rw [ih (mergeLanguageRow stats v) hrest, langCount_mergeLanguageRow,
      langCount_cons]
    by_cases h2 : v.Language.string == k <;>
      by_cases h3 : langCount k stats = 0 <;>
      simp [h2, h3] at hlk ⊢ <;> omega

theorem mergeLanguageRow_append (stats : List LanguageStats) (v : LanguageStats)
    (h : langCount v.Language.string stats = 0) :
    mergeLanguageRow stats v = stats ++ [v] := by
  induction stats with
  | nil => rfl
  | cons s rest ih =>
    rw [langCount_cons] at h
    have h1 : ¬(s.Language.string == v.Language.string) = true := by
      intro hh
      rw [if_pos hh] at h
      omega
    rw [mergeLanguageRow, if_neg h1, ih (by rw [if_neg h1] at h; omega)]
    simp

theorem mergeLanguagesToday_single (stats : List LanguageStats) (v : LanguageStats) :
    mergeLanguagesToday stats [v] = mergeLanguageRow stats v := rfl

/-- C1: the merge step of a dimension query (`Analyzer.Languages`).  With
historical and live rows each carrying pairwise-distinct dimension keys
(both result from SQL `GROUP BY language`, stated as at most one row per
key):  (1) for every key, the merged visitor total is the historical
total plus the live total — a live row with a matching historical row is
added into it; (2) for every key the merged result has `max` of the two
row counts — in particular exactly one row when the key occurs on both
sides; (3) a live row whose key matches no historical row is appended
unchanged; (4) concretely, history `"en" ↦ 10` merged with live
`"en" ↦ 3` is exactly `[{"en", 13}]`. -/
theorem C1_languages_merge (hist live : List LanguageStats)
    (hh : ∀ k, langCount k hist ≤ 1) (hl : ∀ k, langCount k live ≤ 1) :
    (∀ k, langSum k (mergeLanguagesToday hist live) =
      langSum k hist + langSum k live) ∧
    (∀ k, langCount k (mergeLanguagesToday hist live) =
      max (langCount k hist) (langCount k live)) ∧
    (∀ v : LanguageStats, langCount v.Language.string hist = 0 →
      mergeLanguagesToday hist [v] = hist ++ [v]) ∧
    (mergeLanguagesToday [{ Language := ⟨"en", true⟩, Visitors := 10 }]
        [{ Language := ⟨"en", true⟩, Visitors := 3 }] =
      [{ Language := ⟨"en", true⟩, Visitors := 13 }]) :=
  ⟨fun k => langSum_mergeLanguagesToday live hist k,
    fun k => langCount_mergeLanguagesToday live hist k hl,
    fun v hv => by rw [mergeLanguagesToday_single, mergeLanguageRow_append hist v hv],
    by decide⟩

/-- Concrete historical rows for the C1 witness. -/
def c1Hist : List LanguageStats :=
  [{ Language := ⟨"en", true⟩, Visitors := 10 },
    { Language := ⟨"de", true⟩, Visitors := 5 }]

/-- Concrete live rows for the C1 witness. -/
def c1Live : List LanguageStats :=
  [{ Language := ⟨"en", true⟩, Visitors := 3 },
    { Language := ⟨"fr", true⟩, Visitors := 2 }]

/-- C1 witness: the merge facts instantiated on concrete rows with
distinct keys. -/
theorem C1_witness :
    langSum "en" (mergeLanguagesToday c1Hist c1Live) =
      langSum "en" c1Hist + langSum "en" c1Live ∧
    langCount "en" (mergeLanguagesToday c1Hist c1Live) =
      max (langCount "en" c1Hist) (langCount "en" c1Live) ∧
    mergeLanguagesToday c1Hist [{ Language := ⟨"fr", true⟩, Visitors := 2 }] =
      c1Hist ++ [{ Language := ⟨"fr", true⟩, Visitors := 2 }] := by
  have hh : ∀ k, langCount k c1Hist ≤ 1 := by
    intro k
    simp only [c1Hist, langCount_cons, langCount]
    by_cases h1 : (("en" : String) == k) <;>
      by_cases h2 : (("de" : String) == k) <;>
      simp_all <;>
      first
        | omega
        | (subst h1; exact absurd h2 (by decide))
  have hl : ∀ k, langCount k c1Live ≤ 1 := by
    intro k
    simp only [c1Live, langCount_cons, langCount]
    by_cases h1 : (("en" : String) == k) <;>
      by_cases h2 : (("fr" : String) == k) <;>
      simp_all <;>
      first
        | omega
        | (subst h1; exact absurd h2 (by decide))
  exact ⟨(C1_languages_merge c1Hist c1Live hh hl).1 "en",
    (C1_languages_merge c1Hist c1Live hh hl).2.1 "en",
    (C1_languages_merge c1Hist c1Live hh hl).2.2.1
      { Language := ⟨"fr", true⟩, Visitors := 2 } (by decide)⟩

/-! ### Ranking and normalization -/

/-- The ranking step shared by every dimension query
(e.g. analyzer.go:130-132): `sort.Slice` with comparator
`stats[i].Visitors > stats[j].Visitors`.  The Go sort is unstable; it is
modelled as insertion sort, which produces a permutation of its input
ordered so that no earlier row has fewer visitors than a later row —
exactly the postcondition `sort.Slice` guarantees for this comparator. -/
def sortVisitorsDesc {α : Type} (vis : α → Int) (l : List α) : List α :=
  List.insertionSort (fun a b => vis b ≤ vis a) l

theorem sorted_sortVisitorsDesc {α : Type} (vis : α → Int) (l : List α) :
    List.Sorted (fun a b => vis b ≤ vis a) (sortVisitorsDesc vis l) := by
  haveI h1 : IsTotal α (fun a b => vis b ≤ vis a) := ⟨fun a b => le_total (vis b) (vis a)⟩
  haveI h2 : IsTrans α (fun a b => vis b ≤ vis a) :=
    ⟨fun a b c hab hbc => le_trans hbc hab⟩
  exact List.sorted_insertionSort _ _

theorem perm_sortVisitorsDesc {α : Type} (vis : α → Int) (l : List α) :
    (sortVisitorsDesc vis l).Perm l :=
  List.perm_insertionSort _ l

theorem sorted_map_preserve {α : Type} (vis : α → Int) (f : α → α)
    (hf : ∀ a, vis (f a) = vis a) (l : List α)
    (h : List.Sorted (fun a b => vis b ≤ vis a) l) :
    List.Sorted (fun a b => vis b ≤ vis a) (l.map f) := by
  refine List.Pairwise.map f ?_ h
  intro a b hab
  rw [hf, hf]
  exact hab

/-- The ranking step of `Analyzer.Languages`. -/
def rankLanguages (stats : List LanguageStats) : List LanguageStats :=
  sortVisitorsDesc (fun s => s.Visitors) stats

/-- The normalization step of `Analyzer.Languages` (analyzer.go:134-142):
total the visitors of the (already ranked) rows, then set each row's
relative share to its visitors divided by the total. -/
def normalizeLanguages (stats : List LanguageStats) : List LanguageStats :=
  stats.map (fun s =>
    { s with RelativeVisitors :=
        (s.Visitors : ℚ) / (stats.map (fun r => (r.Visitors : ℚ))).sum })

/-- The computational core of `Analyzer.Languages` (analyzer.go:106-144),
given the historical rollup rows and the live rows returned by the
store: merge when the range ends today, rank, normalize. -/
def languagesCore (addToday : Bool) (hist live : List LanguageStats) :
    List LanguageStats :=
  normalizeLanguages (rankLanguages
    (if addToday then mergeLanguagesToday hist live else hist))

/-- One iteration of the merge loop in `Analyzer.Referrer`
(analyzer.go:165-179), keyed on `Referrer.String`. -/
def mergeReferrerRow : List ReferrerStats → ReferrerStats → List ReferrerStats
  | [], v => [v]
  | s :: rest, v =>
    if s.Referrer.string == v.Referrer.string then
      { s with Visitors := s.Visitors + v.Visitors } :: rest
    else
      s :: mergeReferrerRow rest v

/-- The merge loop of `Analyzer.Referrer`. -/
def mergeReferrersToday (stats visitorsToday : List ReferrerStats) :
    List ReferrerStats :=
  visitorsToday.foldl mergeReferrerRow stats

/-- The ranking step of `Analyzer.Referrer` (analyzer.go:182-184). -/
def rankReferrers (stats : List ReferrerStats) : List ReferrerStats :=
  sortVisitorsDesc (fun s => s.Visitors) stats

/-- The normalization step of `Analyzer.Referrer` (analyzer.go:186-194). -/
def normalizeReferrers (stats : List ReferrerStats) : List ReferrerStats :=
  stats.map (fun s =>
    { s with RelativeVisitors :=
        (s.Visitors : ℚ) / (stats.map (fun r => (r.Visitors : ℚ))).sum })

/-- The computational core of `Analyzer.Referrer`. -/
def referrersCore (addToday : Bool) (hist live : List ReferrerStats) :
    List ReferrerStats :=
  normalizeReferrers (rankReferrers
    (if addToday then mergeReferrersToday hist live else hist))

/-- One iteration of the merge loop in `Analyzer.OS`
(analyzer.go:217-231), keyed on `OS.String`. -/
def mergeOSRow : List OSStats → OSStats → List OSStats
  | [], v => [v]
  | s :: rest, v =>
    if s.OS.string == v.OS.string then
      { s with Visitors := s.Visitors + v.Visitors } :: rest
    else
      s :: mergeOSRow rest v

/-- The merge loop of `Analyzer.OS`. -/
def mergeOSToday (stats visitorsToday : List OSStats) : List OSStats :=
  visitorsToday.foldl mergeOSRow stats

/-- The ranking step of `Analyzer.OS` (analyzer.go:234-236). -/
def rankOS (stats : List OSStats) : List OSStats :=
  sortVisitorsDesc (fun s => s.Visitors) stats

/-- The normalization step of `Analyzer.OS` (analyzer.go:238-246). -/
def normalizeOS (stats : List OSStats) : List OSStats :=
  stats.map (fun s =>
    { s with RelativeVisitors :=
        (s.Visitors : ℚ) / (stats.map (fun r => (r.Visitors : ℚ))).sum })

/-- The computational core of `Analyzer.OS`. -/
def osCore (addToday : Bool) (hist live : List OSStats) : List OSStats :=
  normalizeOS (rankOS (if addToday then mergeOSToday hist live else hist))

/-- One iteration of the merge loop in `Analyzer.Browser`
(analyzer.go:269-283), keyed on `Browser.String`. -/
def mergeBrowserRow : List BrowserStats → BrowserStats → List BrowserStats
  | [], v => [v]
  | s :: rest, v =>
    if s.Browser.string == v.Browser.string then
      { s with Visitors := s.Visitors + v.Visitors } :: rest
    else
      s :: mergeBrowserRow rest v

/-- The merge loop of `Analyzer.Browser`. -/
def mergeBrowsersToday (stats visitorsToday : List BrowserStats) :
    List BrowserStats :=
  visitorsToday.foldl mergeBrowserRow stats

/-- The ranking step of `Analyzer.Browser` (analyzer.go:286-288). -/
def rankBrowsers (stats : List BrowserStats) : List BrowserStats :=
  sortVisitorsDesc (fun s => s.Visitors) stats

/-- The normalization step of `Analyzer.Browser` (analyzer.go:290-298). -/
def normalizeBrowsers (stats : List BrowserStats) : List BrowserStats :=
  stats.map (fun s =>
    { s with RelativeVisitors :=
        (s.Visitors : ℚ) / (stats.map (fun r => (r.Visitors : ℚ))).sum })

/-- The computational core of `Analyzer.Browser`. -/
def browsersCore (addToday : Bool) (hist live : List BrowserStats) :
    List BrowserStats :=
  normalizeBrowsers (rankBrowsers
    (if addToday then mergeBrowsersToday hist live else hist))

/-- One iteration of the merge loop in `Analyzer.Screen`
(analyzer.go:349-363), keyed on width and height. -/
def mergeScreenRow : List ScreenStats → ScreenStats → List ScreenStats
  | [], v => [v]
  | s :: rest, v =>
    if s.Width == v.Width && s.Height == v.Height then
      { s with Visitors := s.Visitors + v.Visitors } :: rest
    else
      s :: mergeScreenRow rest v

/-- The merge loop of `Analyzer.Screen`. -/
def mergeScreensToday (stats visitorsToday : List ScreenStats) :
    List ScreenStats :=
  visitorsToday.foldl mergeScreenRow stats

/-- The ranking step of `Analyzer.Screen` (analyzer.go:366-368). -/
def rankScreens (stats : List ScreenStats) : List ScreenStats :=
  sortVisitorsDesc (fun s => s.Visitors) stats

/-- The normalization step of `Analyzer.Screen` (analyzer.go:370-378). -/
def normalizeScreens (stats : List ScreenStats) : List ScreenStats :=
  stats.map (fun s =>
    { s with RelativeVisitors :=
        (s.Visitors : ℚ) / (stats.map (fun r => (r.Visitors : ℚ))).sum })

/-- The computational core of `Analyzer.Screen`. -/
def screensCore (addToday : Bool) (hist live : List ScreenStats) :
    List ScreenStats :=
  normalizeScreens (rankScreens
    (if addToday then mergeScreensToday hist live else hist))

/-- One iteration of the merge loop in `Analyzer.Country`
(analyzer.go:401-415), keyed on the country code. -/
def mergeCountryRow : List CountryStats → CountryStats → List CountryStats
  | [], v => [v]
  | s :: rest, v =>
    if s.CountryCode == v.CountryCode then
      { s with Visitors := s.Visitors + v.Visitors } :: rest
    else
      s :: mergeCountryRow rest v

/-- The merge loop of `Analyzer.Country`. -/
def mergeCountriesToday (stats visitorsToday : List CountryStats) :
    List CountryStats :=
  visitorsToday.foldl mergeCountryRow stats

/-- The ranking step of `Analyzer.Country` (analyzer.go:418-420). -/
def rankCountries (stats : List CountryStats) : List CountryStats :=
  sortVisitorsDesc (fun s => s.Visitors) stats

/-- The normalization step of `Analyzer.Country` (analyzer.go:422-430). -/
def normalizeCountries (stats : List CountryStats) : List CountryStats :=
  stats.map (fun s =>
    { s with RelativeVisitors :=
        (s.Visitors : ℚ) / (stats.map (fun r => (r.Visitors : ℚ))).sum })

/-- The computational core of `Analyzer.Country`. -/
def countriesCore (addToday : Bool) (hist live : List CountryStats) :
    List CountryStats :=
  normalizeCountries (rankCountries
    (if addToday then mergeCountriesToday hist live else hist))

/-! ### Platform aggregate -/

/-- The nil-guard at the top of `Analyzer.Platform` (analyzer.go:310-312):
a failed (nil) historical platform query is replaced by zero stats. -/
def platformBase (visitorPlatform : Option VisitorStats) : VisitorStats :=
  match visitorPlatform with
  | none => {}
  | some s => s

/-- The today-merge of `Analyzer.Platform` (analyzer.go:314-322): add the
live platform counters when they are non-nil. -/
def mergePlatformToday (stats : VisitorStats)
    (countVisitorsByPlatform : Option VisitorStats) : VisitorStats :=
  match countVisitorsByPlatform with
  | some v =>
    { stats with
      PlatformDesktop := stats.PlatformDesktop + v.PlatformDesktop,
      PlatformMobile := stats.PlatformMobile + v.PlatformMobile,
      PlatformUnknown := stats.PlatformUnknown + v.PlatformUnknown }
  | none => stats

/-- The normalization of `Analyzer.Platform` (analyzer.go:324-327):
relative share of each of the three platform buckets. -/
def normalizePlatform (stats : VisitorStats) : VisitorStats :=
  { stats with
    RelativePlatformDesktop := (stats.PlatformDesktop : ℚ) /
      ((stats.PlatformDesktop + stats.PlatformMobile + stats.PlatformUnknown : Int) : ℚ),
    RelativePlatformMobile := (stats.PlatformMobile : ℚ) /
      ((stats.PlatformDesktop + stats.PlatformMobile + stats.PlatformUnknown : Int) : ℚ),
    RelativePlatformUnknown := (stats.PlatformUnknown : ℚ) /
      ((stats.PlatformDesktop + stats.PlatformMobile + stats.PlatformUnknown : Int) : ℚ) }

/-- `Analyzer.Platform` (analyzer.go:304-329) given the two store
results: guard nil history, merge today when the range ends today,
normalize.  It has no error channel — a failed store query contributes
zero counts. -/
def Analyzer.Platform (visitorPlatform countVisitorsByPlatform : Option VisitorStats)
    (addToday : Bool) : VisitorStats :=
  normalizePlatform (if addToday
    then mergePlatformToday (platformBase visitorPlatform) countVisitorsByPlatform
    else platformBase visitorPlatform)

theorem platform_rel_sum (s : VisitorStats)
    (h : 0 < s.PlatformDesktop + s.PlatformMobile + s.PlatformUnknown) :
    (normalizePlatform s).RelativePlatformDesktop +
      (normalizePlatform s).RelativePlatformMobile +
      (normalizePlatform s).RelativePlatformUnknown = 1 := by
  have hS : ((s.PlatformDesktop + s.PlatformMobile + s.PlatformUnknown : Int) : ℚ) ≠ 0 := by
    exact_mod_cast h.ne'
  unfold normalizePlatform
  dsimp only
  rw [div_add_div_same, div_add_div_same]
  rw [show ((s.PlatformDesktop + s.PlatformMobile + s.PlatformUnknown : Int) : ℚ) =
    (s.PlatformDesktop : ℚ) + (s.PlatformMobile : ℚ) + (s.PlatformUnknown : ℚ) by
      push_cast; ring] at hS ⊢
  exact div_self hS

theorem sum_relatives_normalizeLanguages (stats : List LanguageStats)
    (h : 0 < (stats.map (fun r => (r.Visitors : ℚ))).sum) :
    ((normalizeLanguages stats).map (fun s => s.RelativeVisitors)).sum = 1 := by
  unfold normalizeLanguages
  rw [List.map_map]
  have heq : ((fun s : LanguageStats => s.RelativeVisitors) ∘ fun s : LanguageStats =>
      { s with RelativeVisitors :=
          (s.Visitors : ℚ) / (stats.map (fun r : LanguageStats => (r.Visitors : ℚ))).sum }) =
      fun s : LanguageStats =>
        (s.Visitors : ℚ) * ((stats.map (fun r => (r.Visitors : ℚ))).sum)⁻¹ := by
    funext s
    simp [div_eq_mul_inv]
  rw [heq, List.sum_map_mul_right, mul_inv_cancel₀ h.ne']

/-- C4: relative shares sum to one.  For the ranked-list dimension
queries (shown for `Analyzer.Languages`): whenever the merged result set
has a positive visitor total, the relative shares produced by the
normalization step sum to exactly 1; likewise the three platform shares
of `Analyzer.Platform` sum to 1 whenever the three platform counters have
a positive total.  (Division is exact rational arithmetic here; Go
computes the same quotients in float64.) -/
theorem C4_relative_shares :
    (∀ (addToday : Bool) (hist live : List LanguageStats),
      0 < (((if addToday then mergeLanguagesToday hist live else hist)).map
        (fun r => (r.Visitors : ℚ))).sum →
      ((languagesCore addToday hist live).map
        (fun s => s.RelativeVisitors)).sum = 1) ∧
    (∀ (vp cvp : Option VisitorStats) (addToday : Bool),
      0 < (Analyzer.Platform vp cvp addToday).PlatformDesktop +
          (Analyzer.Platform vp cvp addToday).PlatformMobile +
          (Analyzer.Platform vp cvp addToday).PlatformUnknown →
      (Analyzer.Platform vp cvp addToday).RelativePlatformDesktop +
        (Analyzer.Platform vp cvp addToday).RelativePlatformMobile +
        (Analyzer.Platform vp cvp addToday).RelativePlatformUnknown = 1) := by
  constructor
  · intro addToday hist live h
    unfold languagesCore
    apply sum_relatives_normalizeLanguages
    have hp : (rankLanguages (if addToday then mergeLanguagesToday hist live else hist)).Perm
        (if addToday then mergeLanguagesToday hist live else hist) :=
      perm_sortVisitorsDesc _ _
    rw [List.Perm.sum_eq (List.Perm.map _ hp)]
    exact h
  · intro vp cvp addToday h
    exact platform_rel_sum _ h

/-- C4 witness: shares sum to 1 on a concrete language result set and a
concrete platform aggregate. -/
theorem C4_witness :
    ((languagesCore false c1Hist []).map (fun s => s.RelativeVisitors)).sum = 1 ∧
    (Analyzer.Platform
        (some { PlatformDesktop := 2, PlatformMobile := 1, PlatformUnknown := 1 })
        none false).RelativePlatformDesktop +
      (Analyzer.Platform
        (some { PlatformDesktop := 2, PlatformMobile := 1, PlatformUnknown := 1 })
        none false).RelativePlatformMobile +
      (Analyzer.Platform
        (some { PlatformDesktop := 2, PlatformMobile := 1, PlatformUnknown := 1 })
        none false).RelativePlatformUnknown = 1 :=
  ⟨C4_relative_shares.1 false c1Hist [] (by norm_num [c1Hist]),
    C4_relative_shares.2
      (some { PlatformDesktop := 2, PlatformMobile := 1, PlatformUnknown := 1 })
      none false (by decide)⟩

/-- C9: every ranked dimension result (languages, referrers, OS,
browsers, screen sizes, countries) is sorted by visitor count in
descending order — for adjacent rows the later row never has more
visitors than the earlier one. -/
theorem C9_ranked_desc :
    (∀ (addToday : Bool) (hist live : List LanguageStats),
      List.Sorted (fun a b : LanguageStats => b.Visitors ≤ a.Visitors)
        (languagesCore addToday hist live)) ∧
    (∀ (addToday : Bool) (hist live : List ReferrerStats),
      List.Sorted (fun a b : ReferrerStats => b.Visitors ≤ a.Visitors)
        (referrersCore addToday hist live)) ∧
    (∀ (addToday : Bool) (hist live : List OSStats),
      List.Sorted (fun a b : OSStats => b.Visitors ≤ a.Visitors)
        (osCore addToday hist live)) ∧
    (∀ (addToday : Bool) (hist live : List BrowserStats),
      List.Sorted (fun a b : BrowserStats => b.Visitors ≤ a.Visitors)
        (browsersCore addToday hist live)) ∧
    (∀ (addToday : Bool) (hist live : List ScreenStats),
      List.Sorted (fun a b : ScreenStats => b.Visitors ≤ a.Visitors)
        (screensCore addToday hist live)) ∧
    (∀ (addToday : Bool) (hist live : List CountryStats),
      List.Sorted (fun a b : CountryStats => b.Visitors ≤ a.Visitors)
        (countriesCore addToday hist live)) := by
  refine ⟨?_, ?_, ?_, ?_, ?_, ?_⟩ <;>
    intro addToday hist live <;>
    simp only [languagesCore, referrersCore, osCore, browsersCore, screensCore,
      countriesCore, normalizeLanguages, normalizeReferrers, normalizeOS,
      normalizeBrowsers, normalizeScreens, normalizeCountries, rankLanguages,
      rankReferrers, rankOS, rankBrowsers, rankScreens, rankCountries] <;>
    (refine sorted_map_preserve _ _ (fun a => ?_) _ (sorted_sortVisitorsDesc _ _); rfl)

/-! ### Whole-period aggregates: Visitors / PageVisitors -/

/-- The bounce-rate pass shared by `Analyzer.Visitors` (analyzer.go:74-78)
and `Analyzer.PageVisitors` (analyzer.go:497-501): for rows with a
positive visitor count, set `BounceRate = Bounces / Visitors`; leave
other rows untouched. -/
def computeBounceRates (stats : List Stats) : List Stats :=
  stats.map (fun s =>
    if 0 < s.Visitors then
      { s with BounceRate := (s.Bounces : ℚ) / (s.Visitors : ℚ) }
    else s)

/-- The last-row merge of `Analyzer.Visitors` (analyzer.go:61-63) and
`Analyzer.PageVisitors` (analyzer.go:484-486): add today's visitor and
session counts and the single-hit (bounce) count into the final row of
the per-day series. -/
def addTodayToLast (visitorsToday : Stats) (bouncesToday : Int) :
    List Stats → List Stats
  | [] => []
  | [s] => [{ s with
      Visitors := s.Visitors + visitorsToday.Visitors,
      Sessions := s.Sessions + visitorsToday.Sessions,
      Bounces := s.Bounces + bouncesToday }]
  | s :: rest => s :: addTodayToLast visitorsToday bouncesToday rest

/-- `Analyzer.Visitors` (analyzer.go:45-81) after the store calls, given
the historical per-day rows, the live `CountVisitors` result (`nil` = a
failed query, exactly as `PostgresStore.CountVisitors` returns), and the
live single-hit count.  A `none` result models the Go panic: in the
empty-history branch `visitorsToday` is dereferenced without a nil
check.  Note the empty-history branch fills `Bounces` from
`visitorsToday.Bounces`, not from `bouncesToday`. -/
def Analyzer.Visitors (addToday : Bool) (stats : List Stats)
    (visitorsToday : Option Stats) (bouncesToday : Int) : Option (List Stats) :=
  if addToday then
    if 0 < stats.length then
      match visitorsToday with
      | some v => some (computeBounceRates (addTodayToLast v bouncesToday stats))
      | none => some (computeBounceRates stats)
    else
      match visitorsToday with
      | none => none
      | some v => some (computeBounceRates
          [{ Visitors := v.Visitors, Sessions := v.Sessions, Bounces := v.Bounces }])
  else
    some (computeBounceRates stats)

/-- The per-path body of `Analyzer.PageVisitors` (analyzer.go:473-501)
after the store calls: merge today's first per-path row and the per-path
single-hit count, then compute bounce rates.  With an empty historical
series and a non-empty live result, a new row is appended carrying
today's counts (here, unlike `Analyzer.Visitors`, the bounce count
really is `bouncesToday`). -/
def Analyzer.pagePathVisitors (addToday : Bool) (visitors : List Stats)
    (visitorsToday : List VisitorStats) (bouncesToday : Int) : List Stats :=
  computeBounceRates
    (if addToday then
      (match visitorsToday with
        | v :: _ =>
          if 0 < visitors.length then
            addTodayToLast { Visitors := v.Visitors, Sessions := v.Sessions }
              bouncesToday visitors
          else
            visitors ++
              [{ Visitors := v.Visitors, Sessions := v.Sessions, Bounces := bouncesToday }]
        | [] => visitors)
    else visitors)

/-- The per-row bounce-rate postcondition of C5. -/
def BounceRateOK (s : Stats) : Prop :=
  0 ≤ s.BounceRate ∧ s.BounceRate ≤ 1 ∧
    (s.Visitors = 0 → s.BounceRate = 0) ∧
    (0 < s.Visitors → s.BounceRate = (s.Bounces : ℚ) / (s.Visitors : ℚ))

/-- The per-row precondition C5 inherits from the store contract:
bounce and visitor counts are distinct-fingerprint counts with the
bouncing fingerprints a subset of the visiting ones, and the scanned
rows carry a zero bounce rate. -/
def StatsRowOK (s : Stats) : Prop :=
  0 ≤ s.Bounces ∧ s.Bounces ≤ s.Visitors ∧ s.BounceRate = 0

theorem computeBounceRates_ok (stats : List Stats)
    (h : ∀ s ∈ stats, StatsRowOK s) :
    ∀ r ∈ computeBounceRates stats, BounceRateOK r := by
  intro r hr
  rw [computeBounceRates, List.mem_map] at hr
  obtain ⟨s, hs, hmap⟩ := hr
  obtain ⟨hb0, hbv, hrate⟩ := h s hs
  by_cases hv : 0 < s.Visitors
  · rw [if_pos hv] at hmap
    subst hmap
    have hvq : (0 : ℚ) < (s.Visitors : ℚ) := by exact_mod_cast hv
    refine ⟨?_, ?_, ?_, ?_⟩
    · exact div_nonneg (by exact_mod_cast hb0) hvq.le
    · rw [div_le_one hvq]
      exact_mod_cast hbv
    · intro h0
      dsimp at h0
      omega
    · intro _
      rfl
  · rw [if_neg hv] at hmap
    subst hmap
    have hv0 : s.Visitors = 0 := by omega
    refine ⟨by rw [hrate], by rw [hrate]; norm_num, fun _ => hrate, fun hpos => absurd hpos hv⟩

theorem addTodayToLast_ok (visitorsToday : Stats) (bouncesToday : Int)
    (stats : List Stats)
    (hb0 : 0 ≤ bouncesToday) (hbv : bouncesToday ≤ visitorsToday.Visitors)
    (hv0 : 0 ≤ visitorsToday.Visitors) :
    (∀ s ∈ stats, StatsRowOK s) →
    ∀ r ∈ addTodayToLast visitorsToday bouncesToday stats, StatsRowOK r := by
  induction stats with
  | nil => intro _ r hr; cases hr
  | cons s rest ih =>
    intro h r hr
    cases rest with
    | nil =>
      simp only [addTodayToLast] at hr
      rcases List.mem_singleton.mp hr with rfl
      obtain ⟨h1, h2, h3⟩ := h s (List.mem_cons_self s [])
      exact ⟨by dsimp; omega, by dsimp; omega, by dsimp; exact h3⟩
    | cons s2 rest2 =>
      simp only [addTodayToLast] at hr
      rcases List.mem_cons.mp hr with rfl | hr2
      · exact h r (List.mem_cons_self r _)
      · exact ih (fun x hx => h x (List.mem_cons_of_mem s hx)) r hr2

theorem visitors_rows_ok (addToday : Bool) (stats : List Stats)
    (visitorsToday : Option Stats) (bouncesToday : Int) (out : List Stats)
    (hstats : ∀ s ∈ stats, StatsRowOK s)
    (htoday : ∀ v, visitorsToday = some v → 0 ≤ v.Bounces ∧ v.Bounces ≤ v.Visitors)
    (hb0 : 0 ≤ bouncesToday)
    (hbv : ∀ v, visitorsToday = some v → bouncesToday ≤ v.Visitors)
    (hout : Analyzer.Visitors addToday stats visitorsToday bouncesToday = some out) :
    ∀ r ∈ out, BounceRateOK r := by
  rw [Analyzer.Visitors.eq_def] at hout
  split at hout
  · split at hout
    · split at hout
      · rename_i v
        injection hout with h
        subst h
        obtain ⟨h1, h2⟩ := htoday v rfl
        exact computeBounceRates_ok _
          (addTodayToLast_ok v bouncesToday stats hb0 (hbv v rfl) (by omega) hstats)
      · injection hout with h
        subst h
        exact computeBounceRates_ok _ hstats
    · split at hout
      · exact absurd hout (by simp)
      · rename_i v
        injection hout with h
        subst h
        obtain ⟨h1, h2⟩ := htoday v rfl
        refine computeBounceRates_ok _ ?_
        intro s hs
        rcases List.mem_singleton.mp hs with rfl
        exact ⟨h1, h2, rfl⟩
  · injection hout with h
    subst h
    exact computeBounceRates_ok _ hstats

theorem pagePath_rows_ok (addToday : Bool) (visitors : List Stats)
    (visitorsToday : List VisitorStats) (bouncesToday : Int)
    (hvis : ∀ s ∈ visitors, StatsRowOK s)
    (hb0 : 0 ≤ bouncesToday)
    (hbv : ∀ v rest, visitorsToday = v :: rest → bouncesToday ≤ v.Visitors) :
    ∀ r ∈ Analyzer.pagePathVisitors addToday visitors visitorsToday bouncesToday,
      BounceRateOK r := by
  rw [Analyzer.pagePathVisitors.eq_def]
  refine computeBounceRates_ok _ ?_
  split
  · split
    · rename_i v rest
      split
      · exact addTodayToLast_ok _ bouncesToday visitors hb0
          (hbv v rest rfl) (le_trans hb0 (hbv v rest rfl)) hvis
      · intro s hs
        rcases List.mem_append.mp hs with hs | hs
        · exact hvis s hs
        · rcases List.mem_singleton.mp hs with rfl
          exact ⟨hb0, hbv v rest rfl, rfl⟩
    · exact hvis
  · exact hvis

/-- C5: every per-day row produced by `Analyzer.Visitors` and by the
per-path body of `Analyzer.PageVisitors` has `0 ≤ BounceRate ≤ 1`, with
`BounceRate = 0` when the row's visitors are 0 and
`BounceRate = Bounces / Visitors` when they are positive — under the
store contract that every count is a distinct-fingerprint count (so
`0 ≤ bounces ≤ visitors` on each input row and for the live counts) and
that scanned rows carry a zero bounce rate. -/
theorem C5_bounce_rate :
    (∀ (addToday : Bool) (stats : List Stats) (visitorsToday : Option Stats)
      (bouncesToday : Int) (out : List Stats),
      (∀ s ∈ stats, StatsRowOK s) →
      (∀ v, visitorsToday = some v → 0 ≤ v.Bounces ∧ v.Bounces ≤ v.Visitors) →
      0 ≤ bouncesToday →
      (∀ v, visitorsToday = some v → bouncesToday ≤ v.Visitors) →
      Analyzer.Visitors addToday stats visitorsToday bouncesToday = some out →
      ∀ r ∈ out, BounceRateOK r) ∧
    (∀ (addToday : Bool) (visitors : List Stats)
      (visitorsToday : List VisitorStats) (bouncesToday : Int),
      (∀ s ∈ visitors, StatsRowOK s) →
      0 ≤ bouncesToday →
      (∀ v rest, visitorsToday = v :: rest → bouncesToday ≤ v.Visitors) →
      ∀ r ∈ Analyzer.pagePathVisitors addToday visitors visitorsToday bouncesToday,
        BounceRateOK r) :=
  ⟨fun a s vT bT out h1 h2 h3 h4 h5 => visitors_rows_ok a s vT bT out h1 h2 h3 h4 h5,
    fun a vis vT bT h1 h2 h3 => pagePath_rows_ok a vis vT bT h1 h2 h3⟩

/-- Concrete per-day history for the C5 witness: one day with 4 visitors,
1 bounce. -/
def c5Hist : List Stats := [{ Visitors := 4, Sessions := 5, Bounces := 1 }]

/-- C5 witness: the bounce-rate bounds instantiated on a concrete merge
of one historical day with a live count. -/
theorem C5_witness :
    (∀ r ∈ (computeBounceRates (addTodayToLast
        { Visitors := 2, Sessions := 2, Bounces := 0 } 1 c5Hist)), BounceRateOK r) ∧
    (∀ r ∈ Analyzer.pagePathVisitors true c5Hist
        [{ Visitors := 2, Sessions := 2 }] 1, BounceRateOK r) := by
  constructor
  · intro r hr
    refine C5_bounce_rate.1 true c5Hist
      (some { Visitors := 2, Sessions := 2, Bounces := 0 }) 1
      (computeBounceRates (addTodayToLast
        { Visitors := 2, Sessions := 2, Bounces := 0 } 1 c5Hist))
      ?_ ?_ (by norm_num) ?_ rfl r hr
    · intro s hs
      rcases List.mem_singleton.mp hs with rfl
      exact ⟨by norm_num, by norm_num, rfl⟩
    · intro v hv
      injection hv with hv
      subst hv
      exact ⟨by norm_num, by norm_num⟩
    · intro v hv
      injection hv with hv
      subst hv
      norm_num
  · refine C5_bounce_rate.2 true c5Hist [{ Visitors := 2, Sessions := 2 }] 1
      ?_ (by norm_num) ?_
    · intro s hs
      rcases List.mem_singleton.mp hs with rfl
      exact ⟨by norm_num, by norm_num, rfl⟩
    · intro v rest hv
      injection hv with hv hrest
      subst hv
      norm_num

/-- C6: at the failing input — range ends today, historical series
empty, live count `{Visitors 1, Sessions 1}` (its `Bounces` field is 0:
`PostgresStore.CountVisitors` never scans a bounce column), live
single-hit count 1 — `Analyzer.Visitors` appends a day row whose
`Bounces` is 0, discarding the computed `bouncesToday = 1`; the
spec/claim requires the appended row to carry today's bounce count.  The
sibling `Analyzer.PageVisitors` branch (second conjunct) does carry
`bouncesToday` into the appended row, confirming the intent. -/
theorem C6_empty_history_drops_bounces :
    Analyzer.Visitors true [] (some { Visitors := 1, Sessions := 1 }) 1 =
      some [{ Visitors := 1, Sessions := 1, Bounces := 0, BounceRate := 0 }] ∧
    Analyzer.pagePathVisitors true [] [{ Visitors := 1, Sessions := 1 }] 1 =
      [{ Visitors := 1, Sessions := 1, Bounces := 1, BounceRate := 1 }] := by
  constructor
  · simp [Analyzer.Visitors, computeBounceRates]
  · simp [Analyzer.pagePathVisitors, computeBounceRates, addTodayToLast]

/-- The nil-on-failure behaviour of `PostgresStore.CountVisitors`
(postgres.go:439-461): a query error other than "no rows" is logged and
`nil` is returned; success and the no-rows case return the (possibly
still zero) scanned `Stats`.  The parameter folds the no-rows case into
`Except.ok` with a zero row, which is what `tx.Get` leaves behind. -/
def PostgresStore.CountVisitors (queryResult : Except String Stats) : Option Stats :=
  match queryResult with
  | .error _ => none
  | .ok s => some s

/-- C10: `Analyzer.Visitors` is total only when the live count is
non-nil in the empty-history branch.  (1) In the non-empty branch a nil
live count is guarded and skipped; (2) in the empty branch a nil live
count is dereferenced — modelled as the `none` (panic) result; (3) with
`PostgresStore.CountVisitors`, whose failure result is nil, the call
panics instead of returning a result or an error. -/
theorem C10_nil_count_panics :
    (∀ (s : Stats) (rest : List Stats) (b : Int),
      Analyzer.Visitors true (s :: rest) none b =
        some (computeBounceRates (s :: rest))) ∧
    (∀ b : Int, Analyzer.Visitors true [] none b = none) ∧
    (∀ (e : String) (b : Int),
      Analyzer.Visitors true [] (PostgresStore.CountVisitors (Except.error e)) b =
        none) :=
  ⟨fun s rest b => by simp [Analyzer.Visitors], fun b => rfl, fun e b => rfl⟩

/-! ### Store range queries and error propagation -/

/-- A row of the `language_stats` rollup table as read by
`PostgresStore.VisitorLanguages` (postgres.go:977-993). -/
structure LanguageRow where
  Day : DateTime
  Language : NullString
  Visitors : Int
deriving DecidableEq, Repr

/-- The day-range predicate of the historical rollup queries
(postgres.go:982-983 and every sibling query):
`day >= from AND day <= to` — both bounds inclusive. -/
def dayInRange (fromDay toDay day : DateTime) : Bool :=
  !fromDay.After day && !day.After toDay

/-- `PostgresStore.VisitorLanguages` (postgres.go:977-993) over an
abstract table state: keep the rows whose day is inside `[from, to]`,
then `GROUP BY language` summing visitors (realized with the same
first-match merge used everywhere else; the `ORDER BY` of the SQL is
irrelevant to the per-key totals stated about this function). -/
def PostgresStore.VisitorLanguages (table : List LanguageRow)
    (fromDay toDay : DateTime) : List LanguageStats :=
  (table.filter (fun r => dayInRange fromDay toDay r.Day)).foldl
    (fun acc r => mergeLanguageRow acc { Language := r.Language, Visitors := r.Visitors })
    []

theorem langSum_foldl_rows (rows : List LanguageRow) (acc : List LanguageStats)
    (k : String) :
    langSum k (rows.foldl
      (fun a r => mergeLanguageRow a { Language := r.Language, Visitors := r.Visitors })
      acc) =
      langSum k acc +
        ((rows.filter (fun r => r.Language.string == k)).map (fun r => r.Visitors)).sum := by
  induction rows generalizing acc with
  | nil => simp
  | cons r rest ih =>
    rw [List.foldl_cons, ih, langSum_mergeLanguageRow]
    by_cases h : r.Language.string == k <;>
      simp [List.filter_cons, h] <;> omega

/-- The `Store` interface shape `Analyzer.Languages` consumes: the
historical rollup query and the live today query, each either failing
with an error or returning rows. -/
structure LanguagesStore where
  VisitorLanguages : Except String (List LanguageStats)
  CountVisitorsByLanguage : Except String (List LanguageStats)
deriving Repr

/-- `Analyzer.Languages` (analyzer.go:96-145): propagate a historical
query error; when the (validated) `To` equals today, run the live query
— propagating its error — and merge; rank and normalize. -/
def Analyzer.Languages (today filterTo : DateTime) (store : LanguagesStore) :
    Except String (List LanguageStats) :=
  match store.VisitorLanguages with
  | .error e => .error e
  | .ok stats =>
    if today.Equal filterTo then
      match store.CountVisitorsByLanguage with
      | .error e => .error e
      | .ok visitorsToday =>
        .ok (normalizeLanguages (rankLanguages (mergeLanguagesToday stats visitorsToday)))
    else
      .ok (normalizeLanguages (rankLanguages stats))

/-- A rollup row dated today, for the C7 counterexample. -/
def c7Row : LanguageRow := { Day := cexToday, Language := ⟨"en", true⟩, Visitors := 5 }

/-- C7 counterexample: with `To = today`, the historical rollup query
keeps a rollup row whose day IS today (its `WHERE` clause is
`day <= to`), so today's rollups are not excluded: a table holding only
a today-dated row contributes its 5 visitors instead of being
filtered out. -/
theorem C7_today_rollup_included_cex :
    PostgresStore.VisitorLanguages [c7Row] cexToday cexToday =
      [{ Language := ⟨"en", true⟩, Visitors := 5 }] ∧
    c7Row.Day = cexToday := by
  constructor
  · rfl
  · rfl

/-- C7 (amended): (1) the historical rollup query contributes exactly
the rollup rows with `From ≤ day ≤ To` — inclusive of `To`, hence of
today when `To = today`; exclusion of an unfinalized today rollup is not
done by the query.  (2) For ranges not ending today no live query is
made: the result does not depend on the live-query field of the store at
all.  (3) The live query is consulted exactly when `To` equals today. -/
theorem C7_range_and_live (table : List LanguageRow) (fromDay toDay : DateTime)
    (k : String) (today filterTo : DateTime)
    (hist : Except String (List LanguageStats))
    (live1 live2 : Except String (List LanguageStats))
    (hne : today.Equal filterTo = false) :
    langSum k (PostgresStore.VisitorLanguages table fromDay toDay) =
      ((table.filter (fun r => r.Language.string == k && dayInRange fromDay toDay r.Day)).map
        (fun r => r.Visitors)).sum ∧
    Analyzer.Languages today filterTo
        { VisitorLanguages := hist, CountVisitorsByLanguage := live1 } =
      Analyzer.Languages today filterTo
        { VisitorLanguages := hist, CountVisitorsByLanguage := live2 } := by
  constructor
  · rw [PostgresStore.VisitorLanguages, langSum_foldl_rows, langSum_nil,
      List.filter_filter]
    simp
  · cases hist with
    | error e => rfl
    | ok stats =>
      simp [Analyzer.Languages, hne]

/-- C7 witness: the amended facts at a concrete table, range, and an
off-today filter. -/
theorem C7_witness :
    langSum "en" (PostgresStore.VisitorLanguages [c7Row] cexToday cexToday) =
      (([c7Row].filter (fun r => r.Language.string == "en" &&
        dayInRange cexToday cexToday r.Day)).map (fun r => r.Visitors)).sum ∧
    Analyzer.Languages cexToday ⟨2021, 5, 30, 0, 0, 0, 0⟩
        { VisitorLanguages := Except.ok [], CountVisitorsByLanguage := Except.ok [] } =
      Analyzer.Languages cexToday ⟨2021, 5, 30, 0, 0, 0, 0⟩
        { VisitorLanguages := Except.ok [],
          CountVisitorsByLanguage := Except.error "live query failed" } :=
  ⟨(C7_range_and_live [c7Row] cexToday cexToday "en" cexToday
      ⟨2021, 5, 30, 0, 0, 0, 0⟩ (Except.ok []) (Except.ok [])
      (Except.error "live query failed") (by decide)).1,
    (C7_range_and_live [c7Row] cexToday cexToday "en" cexToday
      ⟨2021, 5, 30, 0, 0, 0, 0⟩ (Except.ok [])
      (Except.error "live query failed") (Except.ok []) (by decide)).2.symm⟩

/-- `PathVisitors` (analyzer.go:8-12): per-path day series. -/
structure PathVisitors where
  Path : String
  Stats : List Pirsch.Stats
deriving DecidableEq, Repr

/-- The `Store` interface shape `Analyzer.PageVisitors` consumes.  The
single-hit count query (`CountVisitorsByPathAndMaxOneHit`,
postgres.go:843-876) has no error return in Go — on failure it logs and
returns the zero count — hence a plain `Int` here. -/
structure PageStore where
  Paths : Except String (List String)
  PageVisitors : String → Except String (List Pirsch.Stats)
  CountVisitorsByPath : String → Except String (List VisitorStats)
  CountVisitorsByPathAndMaxOneHit : String → Int

/-- `Analyzer.getPaths` (analyzer.go:658-670): a non-empty filter path
is used as-is; otherwise the store is asked for all paths, and a store
ERROR IS SWALLOWED — the method returns an empty path list instead of
propagating the failure. -/
def Analyzer.getPaths (filterPath : String) (pathsResult : Except String (List String)) :
    List String :=
  if filterPath ≠ "" then [filterPath]
  else
    match pathsResult with
    | .error _ => []
    | .ok paths => paths

/-- The loop of `Analyzer.PageVisitors` (analyzer.go:466-507): per path,
query the day series (propagating errors), merge today's counts when the
range ends today (propagating live-query errors), compute bounce rates,
and collect the per-path results in order. -/
def Analyzer.pageVisitorsLoop (store : PageStore) (addToday : Bool) :
    List String → Except String (List PathVisitors)
  | [] => .ok []
  | path :: rest =>
    match store.PageVisitors path with
    | .error e => .error e
    | .ok visitors =>
      if addToday then
        match store.CountVisitorsByPath path with
        | .error e => .error e
        | .ok visitorsToday =>
          match Analyzer.pageVisitorsLoop store addToday rest with
          | .error e => .error e
          | .ok restStats =>
            .ok (⟨path, Analyzer.pagePathVisitors true visitors visitorsToday
              (store.CountVisitorsByPathAndMaxOneHit path)⟩ :: restStats)
      else
        match Analyzer.pageVisitorsLoop store addToday rest with
        | .error e => .error e
        | .ok restStats =>
          .ok (⟨path, Analyzer.pagePathVisitors false visitors [] 0⟩ :: restStats)

/-- `Analyzer.PageVisitors` (analyzer.go:459-510): resolve the path list
through `getPaths`, then run the per-path loop. -/
def Analyzer.PageVisitors (store : PageStore) (filterPath : String) (addToday : Bool) :
    Except String (List PathVisitors) :=
  Analyzer.pageVisitorsLoop store addToday (Analyzer.getPaths filterPath store.Paths)

/-- A store whose `Paths` query fails but whose other queries succeed. -/
def cexPageStore : PageStore :=
  { Paths := .error "store failure",
    PageVisitors := fun _ => .ok [],
    CountVisitorsByPath := fun _ => .ok [],
    CountVisitorsByPathAndMaxOneHit := fun _ => 0 }

/-- C8 counterexample: a failing `Paths` query does NOT surface as a
failure of `Analyzer.PageVisitors` — `getPaths` swallows the error and
the method succeeds with an empty result, refuting the claim that every
store error any dimension method encounters propagates to the caller. -/
theorem C8_swallowed_error_cex :
    Analyzer.PageVisitors cexPageStore "" true = .ok ([] : List PathVisitors) ∧
    Analyzer.PageVisitors cexPageStore "" true ≠
      Except.error "store failure" :=
  ⟨rfl, fun hcon => Except.noConfusion hcon⟩

/-- C8 (amended): the dimension methods with an error return
(`Languages` shown; `Referrer`, `OS`, `Browser`, `Screen`, `Country`,
`Visitors` are textually identical) propagate the first store error —
from the historical query, and from the live query when the range ends
today — and succeed (an empty result set is not an error) otherwise;
but `Analyzer.Platform` has no error channel and computes zero counts
from a failed store query, and `Analyzer.PageVisitors` consults
`getPaths`, which turns a failed `Paths` query into an empty path list
and hence an empty successful result. -/
theorem C8_error_propagation :
    (∀ (today filterTo : DateTime) (c : Except String (List LanguageStats)) (e : String),
      Analyzer.Languages today filterTo
        { VisitorLanguages := .error e, CountVisitorsByLanguage := c } = .error e) ∧
    (∀ (today filterTo : DateTime) (hist : List LanguageStats) (e : String),
      today.Equal filterTo = true →
      Analyzer.Languages today filterTo
        { VisitorLanguages := .ok hist, CountVisitorsByLanguage := .error e } =
        .error e) ∧
    (∀ (today filterTo : DateTime) (hist live : List LanguageStats),
      Analyzer.Languages today filterTo
        { VisitorLanguages := .ok hist, CountVisitorsByLanguage := .ok live } =
        .ok (languagesCore (today.Equal filterTo) hist live)) ∧
    (∀ (cvp : Option VisitorStats) (addToday : Bool),
      Analyzer.Platform none cvp addToday = Analyzer.Platform (some {}) cvp addToday) ∧
    (∀ (store : PageStore) (e : String) (addToday : Bool),
      store.Paths = .error e →
      Analyzer.PageVisitors store "" addToday = .ok []) := by
  refine ⟨?_, ?_, ?_, ?_, ?_⟩
  · intro today filterTo c e
    rfl
  · intro today filterTo hist e h
    simp [Analyzer.Languages, h]
  · intro today filterTo hist live
    by_cases h : today.Equal filterTo = true
    · simp [Analyzer.Languages, languagesCore, h]
    · rw [Bool.not_eq_true] at h
      simp [Analyzer.Languages, languagesCore, h]
  · intro cvp addToday
    rfl
  · intro store e addToday h
    rw [Analyzer.PageVisitors, Analyzer.getPaths.eq_def]
    rw [if_neg (by simp), h]
    rfl

/-- C8 witness: error propagation and error swallowing at concrete
stores. -/
theorem C8_witness :
    Analyzer.Languages cexToday cexToday
      { VisitorLanguages := Except.ok [],
        CountVisitorsByLanguage := Except.error "live query failed" } =
      Except.error "live query failed" ∧
    Analyzer.PageVisitors cexPageStore "" false = .ok [] :=
  ⟨C8_error_propagation.2.1 cexToday cexToday [] "live query failed" (by decide),
    C8_error_propagation.2.2.2.2 cexPageStore "store failure" false rfl⟩

end Pirsch
